import Mathlib

/-
Verification of the Anubhava repository (face_recognition_module.py and
chatbot.py) against its design specification.

The Python code is shallowly embedded: the identity store's parallel lists
become a structure of two Lean lists, the external face_recognition library's
distance capability becomes an abstract `dist : Sig → Sig → ℚ` parameter
(the library is out of scope per the spec, §6), numpy's `argmin`/`min` are
translated as first-index-of-minimum and fold-of-min, Python's substring
`in` becomes an executable containment check on character lists, and
`random.choice` becomes a caller-supplied selection oracle.  Disk state is
an explicit value threaded through save/load; a caught write failure is a
`Bool` flag.  Mutex usage is embedded separately as event traces.
-/

namespace Anubhava

/- ### Generic helpers (numpy / python built-ins) -/

/-- `np.min` over a list of distances; `0` for the empty list (the code only
takes the minimum of nonempty distance arrays). -/
def minOf : List ℚ → ℚ
  | [] => 0
  | x :: xs => xs.foldl min x

/-- Worker for `np.argmin`: scans the tail keeping the best (index, value)
pair, replacing it only on a strictly smaller value, so the first occurrence
of the minimum wins, exactly as `np.argmin` does. -/
def argminAux : List ℚ → Nat → Nat × ℚ → Nat × ℚ
  | [], _, best => best
  | x :: xs, i, best =>
      if x < best.2 then argminAux xs (i + 1) (i, x)
      else argminAux xs (i + 1) best

/-- `np.argmin`: index of the first minimal element (`0` on the empty list,
where numpy would raise; the code guards against that case). -/
def argminIdx : List ℚ → Nat
  | [] => 0
  | x :: xs => (argminAux xs 1 (0, x)).1

/-- Whether the first list is an initial segment of the second. -/
def startsWith : List Char → List Char → Bool
  | [], _ => true
  | _ :: _, [] => false
  | n :: ns, h :: hs => n == h && startsWith ns hs

/-- Python's substring test `needle in haystack`. -/
def containsSub (needle : List Char) : List Char → Bool
  | [] => startsWith needle []
  | c :: rest => startsWith needle (c :: rest) || containsSub needle rest

/-- Python's `needle in haystack` on strings. -/
def pyIn (needle hay : String) : Bool :=
  containsSub needle.data hay.data

/-- Python's `str.strip()`: drop leading and trailing whitespace. -/
def pyStrip (l : List Char) : List Char :=
  ((l.dropWhile Char.isWhitespace).reverse.dropWhile Char.isWhitespace).reverse

/-- Python's `message.lower().strip()`. -/
def pyLowerStrip (s : String) : String :=
  String.mk (pyStrip (s.data.map Char.toLower))

/-- Python's `list.index` for the name list: index of the first occurrence. -/
def idxOfName (nm : String) : List String → Nat
  | [] => 0
  | x :: xs => if x = nm then 0 else idxOfName nm xs + 1

/- ### face_recognition_module.py -/

/-- In-memory state of `FaceRecognitionManager`: the two parallel lists
`known_encodings` and `known_names`.  A face encoding is abstracted to a
type parameter `Sig`, since encodings are produced and compared only through
the external library. -/
structure DB (Sig : Type) where
  encodings : List Sig
  names : List String
  deriving DecidableEq

/-- Payload of the pickled database file: the `encodings` and `names` lists
of the saved dict (the timestamp field carries no program-visible state). -/
structure SavedData (Sig : Type) where
  encodings : List Sig
  names : List String
  deriving DecidableEq

/-- A database file on disk: absent, unreadable by `pickle.load`, or a
well-formed pickle of a `SavedData` dict. -/
inductive DiskFile (Sig : Type)
  | missing
  | corrupt
  | valid (d : SavedData Sig)
  deriving DecidableEq

/-- `face_recognition.face_distance(known, q)`: distance from the query
encoding to every known encoding, in order. -/
def face_distance {Sig : Type} (dist : Sig → Sig → ℚ) (known : List Sig)
    (q : Sig) : List ℚ :=
  known.map (fun e => dist e q)

/-- `face_recognition.compare_faces(known, q, tolerance)`: per the library,
`list(face_distance(known, q) <= tolerance)`. -/
def compare_faces {Sig : Type} (dist : Sig → Sig → ℚ) (known : List Sig)
    (q : Sig) (tol : ℚ) : List Bool :=
  (face_distance dist known q).map (fun d => decide (d ≤ tol))

/-- The matching core of `identify_face` for one query encoding
(`face_recognition_module.py` lines 98-114): compare against all known
encodings with tolerance 0.6, and if any comparison succeeds take the
index of minimum distance; return that name when the comparison at that
index holds and its distance is strictly below the threshold. -/
def identify_face_encoding {Sig : Type} (dist : Sig → Sig → ℚ)
    (knownE : List Sig) (knownN : List String) (q : Sig) : Option String :=
  if true ∈ compare_faces dist knownE q (3 / 5) ∧ 0 < knownE.length then
    if (compare_faces dist knownE q (3 / 5)).getD
          (argminIdx (face_distance dist knownE q)) false = true
        ∧ (face_distance dist knownE q).getD
            (argminIdx (face_distance dist knownE q)) 0 < 3 / 5 then
      some (knownN.getD (argminIdx (face_distance dist knownE q)) "")
    else none
  else none

/-- `min_distance` computed for one candidate encoding during registration:
minimum distance to the existing encodings, or `0` when the store is empty
(lines 172-179). -/
def candidate_min_distance {Sig : Type} (dist : Sig → Sig → ℚ)
    (knownE : List Sig) (c : Sig) : ℚ :=
  if 0 < knownE.length then minOf (face_distance dist knownE c) else 0

/-- One iteration of the registration capture loop (lines 181-184): keep the
incoming candidate exactly when its `min_distance` is strictly below the best
so far (`best_confidence` starts at infinity, so the first candidate is
always kept). -/
def selectStep {Sig : Type} (dist : Sig → Sig → ℚ) (knownE : List Sig)
    (acc : Option (Sig × ℚ)) (c : Sig) : Option (Sig × ℚ) :=
  let md := candidate_min_distance dist knownE c
  match acc with
  | none => some (c, md)
  | some best => if md < best.2 then some (c, md) else some best

/-- The whole capture loop of `register_new_user`: fold the selection step
over the successfully captured single-face candidate encodings. -/
def selectBest {Sig : Type} (dist : Sig → Sig → ℚ) (knownE : List Sig)
    (cands : List Sig) : Option (Sig × ℚ) :=
  cands.foldl (selectStep dist knownE) none

/-- The raw disk write inside `save_database`: succeeds or raises. -/
def trySave (ok : Bool) : Except String Unit :=
  if ok then Except.ok () else Except.error "disk write failed"

/-- `save_database` (lines 51-73): writes the two lists; any exception is
caught inside the method and only logged, so the caller always gets a normal
return.  `some f` is a successful write of file `f`; `none` is a caught
failure. -/
def save_database {Sig : Type} (db : DB Sig) (ok : Bool) :
    Option (DiskFile Sig) :=
  match trySave ok with
  | Except.ok _ => some (DiskFile.valid ⟨db.encodings, db.names⟩)
  | Except.error _ => none

/-- `register_new_user` (lines 148-198), with the camera loop abstracted to
the list of candidate encodings obtained from frames containing exactly one
face.  If the loop selected a best encoding, append it and the name to the
in-memory lists, attempt the save (whose failure is swallowed), and return
true; with no candidate return false and leave the store untouched. -/
def register_new_user {Sig : Type} (dist : Sig → Sig → ℚ) (st : DB Sig)
    (name : String) (cands : List Sig) (saveOk : Bool) : DB Sig × Bool :=
  match selectBest dist st.encodings cands with
  | some best =>
      let st2 : DB Sig := ⟨st.encodings ++ [best.1], st.names ++ [name]⟩
      let _disk := save_database st2 saveOk
      (st2, true)
  | none => (st, false)

/-- `remove_user` (lines 200-214): if the name is present, pop the entry at
its first index from both lists, attempt the save (failure swallowed), and
return true; otherwise return false. -/
def remove_user {Sig : Type} (st : DB Sig) (name : String) (saveOk : Bool) :
    DB Sig × Bool :=
  if name ∈ st.names then
    let i := idxOfName name st.names
    let st2 : DB Sig := ⟨st.encodings.eraseIdx i, st.names.eraseIdx i⟩
    let _disk := save_database st2 saveOk
    (st2, true)
  else (st, false)

/-- `load_database` (lines 30-49): a missing file and an unpicklable file
both yield the empty store (the exception is caught); a well-formed file
yields exactly its stored lists, with no validation. -/
def load_database {Sig : Type} : DiskFile Sig → DB Sig
  | DiskFile.missing => ⟨[], []⟩
  | DiskFile.corrupt => ⟨[], []⟩
  | DiskFile.valid d => ⟨d.encodings, d.names⟩

/-- Concrete distance used to instantiate witnesses (`Sig := ℚ`): zero on
equal signatures, otherwise the larger of the two.  Any function of this
type is a valid distance capability; this one is chosen because it is
definable by comparisons alone, so concrete instances evaluate in the
kernel. -/
def dq : ℚ → ℚ → ℚ := fun a b => if a = b then 0 else if a ≤ b then b else a

/- ### chatbot.py -/

/-- `ChatbotManager.responses`: the fixed category → canned-response table,
in its enumeration order. -/
def responses : List (String × List String) :=
  [("greetings",
    ["Hello! It's great to see you! How can I help you today?",
     "Hi there! I'm excited to chat with you. What's on your mind?",
     "Greetings! I'm here and ready to assist you with anything you need.",
     "Hey! Welcome back! What would you like to talk about?"]),
   ("personal_questions",
    ["That's a thoughtful question about me. I'm an AI assistant created to help and chat with people like you.",
     "I'm here to be helpful and engaging. What I find most interesting is learning about the people I talk with!",
     "As an AI, I don't have personal experiences like humans do, but I enjoy our conversations and helping however I can."]),
   ("compliments",
    ["Thank you so much! That means a lot to me. You seem pretty awesome yourself!",
     "That's very kind of you to say! I really appreciate it.",
     "You're too kind! I'm just happy I can be helpful to you."]),
   ("questions",
    ["That's a fascinating question! Let me think about that for a moment...",
     "Great question! I'd be happy to help you explore that topic.",
     "Interesting! That's something worth discussing in detail.",
     "I love thoughtful questions like that. Here's what I think..."]),
   ("help_requests",
    ["I'm absolutely here to help! What specifically can I assist you with?",
     "Of course! I'd be delighted to help you with that.",
     "That's exactly what I'm here for! Let me see how I can help."]),
   ("goodbye",
    ["Goodbye! It was wonderful chatting with you. Have an amazing day!",
     "Take care! I really enjoyed our conversation. Until next time!",
     "See you later! Thanks for the great chat - come back anytime!",
     "Farewell! Hope to see you again soon!"]),
   ("weather",
    ["I don't have access to current weather data, but I'd recommend checking a weather app or website for the most accurate information!",
     "For the most up-to-date weather information, I'd suggest checking your local weather service or a reliable weather app."]),
   ("time",
    ["I don't have access to the current time, but you can check your device's clock or ask your system for the time!",
     "For the current time, I'd recommend checking your computer or phone's clock display."]),
   ("appreciation",
    ["You're very welcome! I'm so glad I could help.",
     "It's my pleasure! That's what I'm here for.",
     "Happy to help! Feel free to ask if you need anything else."]),
   ("default",
    ["That's interesting! Tell me more about what you're thinking.",
     "I'd love to hear more about that. What's your perspective?",
     "That's a good point. What made you think of that?",
     "Hmm, that's worth exploring. What's your experience with that?",
     "I find that topic fascinating. What's your take on it?"])]

/-- The default response list, used when a category is not a key of the
response table. -/
def defaultResponses : List String :=
  ["That's interesting! Tell me more about what you're thinking.",
   "I'd love to hear more about that. What's your perspective?",
   "That's a good point. What made you think of that?",
   "Hmm, that's worth exploring. What's your experience with that?",
   "I find that topic fascinating. What's your take on it?"]

/-- `self.responses[category]` with the code's fallback to the default list
when the category is not a key. -/
def responsesFor (cat : String) : List String :=
  match responses.find? (fun p => p.1 == cat) with
  | some p => p.2
  | none => defaultResponses

/-- `ChatbotManager.keywords` (lines 78-88): the fixed category → keyword
table, in its enumeration order.  Note that the string containing one
question mark is itself a keyword of the questions category. -/
def keywords : List (String × List String) :=
  [("greetings",
    ["hello", "hi", "hey", "greetings", "good morning", "good afternoon",
     "good evening"]),
   ("personal_questions",
    ["who are you", "what are you", "tell me about yourself", "your name"]),
   ("compliments",
    ["thank you", "thanks", "good job", "well done", "excellent", "amazing",
     "awesome"]),
   ("questions", ["what", "how", "why", "when", "where", "who", "?"]),
   ("help_requests",
    ["help", "assist", "support", "can you", "could you", "would you"]),
   ("goodbye", ["bye", "goodbye", "see you", "farewell", "later", "take care"]),
   ("weather", ["weather", "temperature", "rain", "sunny", "cloudy", "storm"]),
   ("time", ["time", "clock", "hour", "minute", "what time"]),
   ("appreciation", ["thank you", "thanks", "appreciate", "grateful"])]

/-- Keyword score of one category (lines 140-144): the number of the
category's keywords occurring as substrings of the message. -/
def scoreCategory (msg : String) (kws : List String) : Nat :=
  (kws.filter (fun k => pyIn k msg)).length

/-- `category_scores`: each category, in enumeration order, with its score. -/
def categoryScores (msg : String) : List (String × Nat) :=
  keywords.map (fun p => (p.1, scoreCategory msg p.2))

/-- One step of Python's `max(category_scores, key=category_scores.get)`:
the running maximum is replaced only by a strictly larger score, so the
first-enumerated category wins ties. -/
def bestStep (acc : Option (String × Nat)) (p : String × Nat) :
    Option (String × Nat) :=
  match acc with
  | none => some p
  | some q => if q.2 < p.2 then some p else some q

/-- `max(category_scores, key=category_scores.get)` as the category with the
first maximal score (and that score). -/
def bestCategory (scores : List (String × Nat)) : Option (String × Nat) :=
  scores.foldl bestStep none

/-- The zero-score fallthrough of `_categorize_message` (lines 152-159):
a question-mark check, then a help-word check, then the default category. -/
def fallbackCategory (msg : String) : String :=
  if pyIn "?" msg then "questions"
  else if ["help", "assist", "support"].any (fun w => pyIn w msg) then
    "help_requests"
  else "default"

/-- `ChatbotManager._categorize_message` (lines 133-159) on the lowered,
stripped message: return the first-enumerated category of maximal score when
that score is positive, else fall through to the special patterns. -/
def categorizeMessage (msg : String) : String :=
  match bestCategory (categoryScores msg) with
  | some cs => if 0 < cs.2 then cs.1 else fallbackCategory msg
  | none => fallbackCategory msg

/-- Chatbot state touched by `get_response`: the conversation history as
(speaker, message) pairs (the timestamp carries no program-visible state)
and the per-name `session_context` message counters (the unused `topics`
list is omitted). -/
structure ChatState where
  history : List (String × String)
  sessionContext : List (String × Nat)
  deriving DecidableEq

/-- Lookup of `session_context[user_name]['message_count']`, the dict being
modelled as an association list with unique keys. -/
def ctxGet (ctx : List (String × Nat)) (n : String) : Option Nat :=
  match ctx.find? (fun p => p.1 == n) with
  | some p => some p.2
  | none => none

/-- Lines 100-103: create the counter at 0 when the name is new, then
increment it. -/
def bumpCtx (ctx : List (String × Nat)) (n : String) : List (String × Nat) :=
  match ctxGet ctx n with
  | some _ => ctx.map (fun p => if p.1 == n then (p.1, p.2 + 1) else p)
  | none => ctx ++ [(n, 1)]

/-- The fixed reply to an empty message (line 109). -/
def emptyPrompt : String := "I didn't catch that. Could you please say something?"

/-- `ChatbotManager.get_response` (lines 90-131).  `choose` stands for
`random.choice`; `user_name` is `None` or a name (the code treats a missing
name via Python truthiness).  Returns the updated state and the reply. -/
def get_response (choose : List String → String) (st : ChatState)
    (message : String) (user_name : Option String) : ChatState × String :=
  let speaker := match user_name with | some n => n | none => "Unknown"
  let hist := st.history ++ [(speaker, message)]
  let ctx := match user_name with
    | some n => bumpCtx st.sessionContext n
    | none => st.sessionContext
  let st2 : ChatState := ⟨hist, ctx⟩
  let message_lower := pyLowerStrip message
  if message_lower = "" then (st2, emptyPrompt)
  else
    let cat := categorizeMessage message_lower
    let base := choose (responsesFor cat)
    let resp :=
      match user_name with
      | some n =>
          if cat ≠ "goodbye" then
            if cat = "greetings" ∧ ctxGet ctx n = some 1 then
              "Hello " ++ n ++ "! " ++ base
            else if cat = "questions" ∨ cat = "help_requests" then
              base ++ " What do you think, " ++ n ++ "?"
            else base
          else base
      | none => base
    (st2, resp)

/- ### Mutex discipline of the store operations, as event traces -/

/-- Events of one store operation relevant to the mutual-exclusion claim:
acquiring `self.mutex`, releasing it, and an access (read or write) to the
shared `known_encodings`/`known_names` lists. -/
inductive StoreEvent
  | lock
  | unlock
  | access
  deriving DecidableEq

/-- Whether every `access` in the trace happens while the lock is held at
positive depth. -/
def accessesLocked : List StoreEvent → Nat → Bool
  | [], _ => true
  | StoreEvent.lock :: t, d => accessesLocked t (d + 1)
  | StoreEvent.unlock :: t, d => accessesLocked t (d - 1)
  | StoreEvent.access :: t, d => decide (0 < d) && accessesLocked t d

/-- `load_database` (lines 30-49): `mutex.lock()`, assign both lists,
`mutex.unlock()` in the `finally`. -/
def load_database_trace : List StoreEvent :=
  [StoreEvent.lock, StoreEvent.access, StoreEvent.access, StoreEvent.unlock]

/-- `save_database` (lines 51-73): `mutex.lock()`, read both lists into the
data dict, `mutex.unlock()` in the `finally`. -/
def save_database_trace : List StoreEvent :=
  [StoreEvent.lock, StoreEvent.access, StoreEvent.access, StoreEvent.unlock]

/-- `identify_face` (lines 75-146): reads `known_encodings` in
`compare_faces` (line 100) and `face_distance` (line 107) and reads
`known_names` (line 112), with no `mutex.lock()` anywhere in the method. -/
def identify_face_trace : List StoreEvent :=
  [StoreEvent.access, StoreEvent.access, StoreEvent.access]

/-- `register_new_user` (lines 148-198): reads `known_encodings` (line 174)
and appends to both lists (lines 188-189) without taking the mutex; only the
nested `save_database` call locks. -/
def register_new_user_trace : List StoreEvent :=
  [StoreEvent.access, StoreEvent.access, StoreEvent.access]
    ++ save_database_trace

/-- `remove_user` (lines 200-214): `mutex.lock()`, membership test, index
lookup, two pops, the nested `save_database`, `mutex.unlock()` in the
`finally`. -/
def remove_user_trace : List StoreEvent :=
  [StoreEvent.lock, StoreEvent.access, StoreEvent.access, StoreEvent.access,
   StoreEvent.access] ++ save_database_trace ++ [StoreEvent.unlock]

/- ### Helper lemmas about the numeric and list helpers -/

lemma foldl_min_le_init : ∀ (l : List ℚ) (a : ℚ), l.foldl min a ≤ a := by
  intro l
  induction l with
  | nil => intro a; exact le_refl a
  | cons x xs ih =>
      intro a
      simp only [List.foldl]
      calc xs.foldl min (min a x) ≤ min a x := ih (min a x)
        _ ≤ a := min_le_left a x

lemma foldl_min_le_mem : ∀ (l : List ℚ) (a x : ℚ), x ∈ l → l.foldl min a ≤ x := by
  intro l
  induction l with
  | nil => intro a x hx; cases hx
  | cons y ys ih =>
      intro a x hx
      simp only [List.foldl]
      rcases List.mem_cons.1 hx with h | h
      · subst h
        calc ys.foldl min (min a x) ≤ min a x := foldl_min_le_init ys (min a x)
          _ ≤ x := min_le_right a x
      · exact ih (min a y) x h

lemma minOf_le_mem (l : List ℚ) (x : ℚ) (hx : x ∈ l) : minOf l ≤ x := by
  cases l with
  | nil => cases hx
  | cons y ys =>
      rcases List.mem_cons.1 hx with h | h
      · subst h; exact foldl_min_le_init ys x
      · exact foldl_min_le_mem ys y x h

lemma argminAux_snd : ∀ (l : List ℚ) (i : Nat) (best : Nat × ℚ),
    (argminAux l i best).2 = l.foldl min best.2 := by
  intro l
  induction l with
  | nil => intro i best; rfl
  | cons x xs ih =>
      intro i best
      simp only [argminAux, List.foldl]
      by_cases h : x < best.2
      · rw [if_pos h, ih, min_eq_right h.le]
      · rw [if_neg h, ih, min_eq_left (le_of_not_lt h)]

lemma argminAux_fst_lt : ∀ (l : List ℚ) (i : Nat) (best : Nat × ℚ),
    best.1 < i → (argminAux l i best).1 < i + l.length := by
  intro l
  induction l with
  | nil => intro i best h; simpa using h
  | cons x xs ih =>
      intro i best h
      simp only [argminAux, List.length_cons]
      by_cases hx : x < best.2
      · rw [if_pos hx]
        have := ih (i + 1) (i, x) (Nat.lt_succ_self i)
        omega
      · rw [if_neg hx]
        have := ih (i + 1) best (Nat.lt_succ_of_lt h)
        omega

lemma argminAux_getD : ∀ (l : List ℚ) (i : Nat) (best : Nat × ℚ)
    (full : List ℚ),
    (∀ j, j < l.length → full.getD (i + j) 0 = l.getD j 0) →
    full.getD best.1 0 = best.2 →
    full.getD (argminAux l i best).1 0 = (argminAux l i best).2 := by
  intro l
  induction l with
  | nil => intro i best full _ hb; simpa [argminAux] using hb
  | cons x xs ih =>
      intro i best full hj hb
      simp only [argminAux]
      by_cases hx : x < best.2
      · rw [if_pos hx]
        apply ih (i + 1) (i, x) full
        · intro j hjlen
          have h1 := hj (j + 1) (by simpa using Nat.succ_lt_succ hjlen)
          have h2 : i + (j + 1) = i + 1 + j := by omega
          rw [h2] at h1
          exact h1
        · have h0 := hj 0 (by simp)
          simpa using h0
      · rw [if_neg hx]
        apply ih (i + 1) best full
        · intro j hjlen
          have h1 := hj (j + 1) (by simpa using Nat.succ_lt_succ hjlen)
          have h2 : i + (j + 1) = i + 1 + j := by omega
          rw [h2] at h1
          exact h1
        · exact hb

lemma argminIdx_lt_length (l : List ℚ) (h : l ≠ []) :
    argminIdx l < l.length := by
  cases l with
  | nil => exact absurd rfl h
  | cons x xs =>
      have hb := argminAux_fst_lt xs 1 (0, x) Nat.zero_lt_one
      simp only [argminIdx, List.length_cons]
      omega

lemma getD_argminIdx (l : List ℚ) (h : l ≠ []) :
    l.getD (argminIdx l) 0 = minOf l := by
  cases l with
  | nil => exact absurd rfl h
  | cons x xs =>
      have hg := argminAux_getD xs 1 (0, x) (x :: xs) ?hsh ?hb0
      case hsh =>
        intro j hjlen
        have h2 : 1 + j = j + 1 := by omega
        rw [h2]
        rfl
      case hb0 => rfl
      show (x :: xs).getD (argminAux xs 1 (0, x)).1 0 = minOf (x :: xs)
      rw [hg, argminAux_snd]
      rfl

lemma getD_mem {α : Type} (d : α) : ∀ (l : List α) (n : Nat),
    n < l.length → l.getD n d ∈ l := by
  intro l
  induction l with
  | nil => intro n h; simp at h
  | cons x xs ih =>
      intro n h
      cases n with
      | zero => exact List.mem_cons_self x xs
      | succ m =>
          exact List.mem_cons_of_mem x
            (ih m (Nat.lt_of_succ_lt_succ (by simpa using h)))

lemma minOf_mem (l : List ℚ) (h : l ≠ []) : minOf l ∈ l := by
  have h1 := getD_argminIdx l h
  have h2 := argminIdx_lt_length l h
  rw [← h1]
  exact getD_mem 0 l (argminIdx l) h2

lemma getD_map_of_lt {α β : Type} (f : α → β) (a : α) (b : β) :
    ∀ (l : List α) (n : Nat), n < l.length →
      (l.map f).getD n b = f (l.getD n a) := by
  intro l
  induction l with
  | nil => intro n h; simp at h
  | cons x xs ih =>
      intro n h
      cases n with
      | zero => rfl
      | succ m =>
          exact ih m (Nat.lt_of_succ_lt_succ (by simpa using h))

/- ### Claim theorems -/

/-- Claim C4: for every query signature and store state, the matching core
computes the distance from the query to each stored signature, takes the
minimum, and returns the name at the index of that minimum exactly when the
minimum distance is strictly below the fixed threshold 0.6, otherwise
`none`; with an empty store it always returns `none`. -/
theorem identify_face_min_threshold {Sig : Type} (dist : Sig → Sig → ℚ)
    (knownE : List Sig) (knownN : List String) (q : Sig) :
    identify_face_encoding dist knownE knownN q =
      if knownE.isEmpty then none
      else if minOf (face_distance dist knownE q) < 3 / 5 then
        some (knownN.getD (argminIdx (face_distance dist knownE q)) "")
      else none := by
  cases knownE with
  | nil => simp [identify_face_encoding, compare_faces, face_distance]
  | cons e es =>
      simp only [identify_face_encoding]
      set ds := face_distance dist (e :: es) q with hds
      set ms := compare_faces dist (e :: es) q (3 / 5) with hms
      set b := argminIdx ds with hbdef
      have hdsne : ds ≠ [] := by simp [hds, face_distance]
      have hblt : b < ds.length := argminIdx_lt_length ds hdsne
      have hgd : ds.getD b 0 = minOf ds := getD_argminIdx ds hdsne
      have hmap : ms = ds.map (fun d => decide (d ≤ 3 / 5)) := rfl
      have hcf : ms.getD b false = decide (ds.getD b 0 ≤ 3 / 5) := by
        rw [hmap]
        exact getD_map_of_lt (fun d => decide (d ≤ 3 / 5)) 0 false ds b hblt
      rw [if_neg (by simp : ¬((e :: es).isEmpty = true))]
      by_cases hm : minOf ds < 3 / 5
      · have hmem : minOf ds ∈ ds := minOf_mem ds hdsne
        have htrue : true ∈ ms := by
          rw [hmap]
          have hin := List.mem_map_of_mem (fun d => decide (d ≤ 3 / 5)) hmem
          have hdec : decide (minOf ds ≤ 3 / 5) = true := decide_eq_true hm.le
          simpa [hdec] using hin
        rw [if_pos hm,
          if_pos (⟨htrue, by simp⟩ : true ∈ ms ∧ 0 < (e :: es).length),
          if_pos (⟨by rw [hcf, hgd]; exact decide_eq_true hm.le,
            by rw [hgd]; exact hm⟩ :
              ms.getD b false = true ∧ ds.getD b 0 < 3 / 5)]
      · rw [if_neg hm]
        by_cases hg : true ∈ ms ∧ 0 < (e :: es).length
        · rw [if_pos hg, if_neg]
          intro hc
          rw [hgd] at hc
          exact hm hc.2
        · rw [if_neg hg]

lemma selectBest_fold_min {Sig : Type} (dist : Sig → Sig → ℚ)
    (knownE : List Sig) : ∀ (cands : List Sig) (b : Sig),
    ∃ c, cands.foldl (selectStep dist knownE)
          (some (b, candidate_min_distance dist knownE b))
        = some (c, candidate_min_distance dist knownE c)
      ∧ c ∈ b :: cands
      ∧ candidate_min_distance dist knownE c
          ≤ candidate_min_distance dist knownE b
      ∧ ∀ c2 ∈ cands, candidate_min_distance dist knownE c
          ≤ candidate_min_distance dist knownE c2 := by
  intro cands
  induction cands with
  | nil =>
      intro b
      exact ⟨b, rfl, List.mem_cons_self b [], le_refl _, by intro c2 h; cases h⟩
  | cons x xs ih =>
      intro b
      simp only [List.foldl]
      by_cases hx : candidate_min_distance dist knownE x
          < candidate_min_distance dist knownE b
      · have hstep : selectStep dist knownE
            (some (b, candidate_min_distance dist knownE b)) x
            = some (x, candidate_min_distance dist knownE x) := by
          simp only [selectStep]
          rw [if_pos hx]
        rw [hstep]
        obtain ⟨c, hc1, hc2, hc3, hc4⟩ := ih x
        refine ⟨c, hc1, ?_, le_of_lt (lt_of_le_of_lt hc3 hx), ?_⟩
        · rcases List.mem_cons.1 hc2 with h | h
          · rw [h]; exact List.mem_cons_of_mem b (List.mem_cons_self x xs)
          · exact List.mem_cons_of_mem b (List.mem_cons_of_mem x h)
        · intro c2 hc2m
          rcases List.mem_cons.1 hc2m with h | h
          · rw [h]; exact hc3
          · exact hc4 c2 h
      · have hstep : selectStep dist knownE
            (some (b, candidate_min_distance dist knownE b)) x
            = some (b, candidate_min_distance dist knownE b) := by
          simp only [selectStep]
          rw [if_neg hx]
        rw [hstep]
        obtain ⟨c, hc1, hc2, hc3, hc4⟩ := ih b
        refine ⟨c, hc1, ?_, hc3, ?_⟩
        · rcases List.mem_cons.1 hc2 with h | h
          · rw [h]; exact List.mem_cons_self b (x :: xs)
          · exact List.mem_cons_of_mem b (List.mem_cons_of_mem x h)
        · intro c2 hc2m
          rcases List.mem_cons.1 hc2m with h | h
          · rw [h]; exact le_trans hc3 (le_of_not_lt hx)
          · exact hc4 c2 h

/-- Claim C1 (amended): with at least one gathered candidate,
`register_new_user` appends the candidate whose minimum distance to the
existing stored signatures is SMALLEST (the first such on ties), together
with the name, and returns true; with no candidate it returns false and
leaves the store untouched. -/
theorem register_new_user_selects_min_candidate {Sig : Type}
    (dist : Sig → Sig → ℚ) (st : DB Sig) (name : String) (cands : List Sig)
    (saveOk : Bool) :
    (cands = [] →
      register_new_user dist st name cands saveOk = (st, false))
    ∧ (cands ≠ [] → ∃ c, c ∈ cands
        ∧ register_new_user dist st name cands saveOk
            = (⟨st.encodings ++ [c], st.names ++ [name]⟩, true)
        ∧ ∀ c2 ∈ cands, candidate_min_distance dist st.encodings c
            ≤ candidate_min_distance dist st.encodings c2) := by
  constructor
  · intro h
    subst h
    rfl
  · intro h
    cases cands with
    | nil => exact absurd rfl h
    | cons x xs =>
        obtain ⟨c, hc1, hc2, hc3, hc4⟩ := selectBest_fold_min dist st.encodings xs x
        have hsel : selectBest dist st.encodings (x :: xs)
            = some (c, candidate_min_distance dist st.encodings c) := by
          simp only [selectBest, List.foldl, selectStep]
          exact hc1
        refine ⟨c, ?_, ?_, ?_⟩
        · exact hc2
        · simp only [register_new_user, hsel]
        · intro c2 hc2m
          rcases List.mem_cons.1 hc2m with hh | hh
          · rw [hh]; exact hc3
          · exact hc4 c2 hh

/-- Instance of the amended claim C1 at a concrete store and candidate
list. -/
theorem register_new_user_selects_min_candidate_inst :
    ∃ c, c ∈ [(1 : ℚ), 2]
      ∧ register_new_user dq ⟨[0], ["existing"]⟩ "new" [1, 2] true
          = (⟨[(0 : ℚ)] ++ [c], ["existing"] ++ ["new"]⟩, true)
      ∧ ∀ c2 ∈ [(1 : ℚ), 2], candidate_min_distance dq [0] c
          ≤ candidate_min_distance dq [0] c2 :=
  (register_new_user_selects_min_candidate dq ⟨[0], ["existing"]⟩ "new"
    [1, 2] true).2 (by decide)

/-- Counterexample to claim C1 as stated: with one stored signature `0` and
the two candidates `1` and `2`, the code appends candidate `1`, whose
minimum distance to the store (namely 1) is strictly SMALLER than that of
candidate `2` (namely 2) — not the candidate of largest minimum distance. -/
theorem register_new_user_largest_min_cex :
    (register_new_user dq ⟨[0], ["existing"]⟩ "new" [1, 2] true).1.encodings
        = [0, 1]
    ∧ candidate_min_distance dq [0] 1 < candidate_min_distance dq [0] 2 := by
  decide

lemma idxOfName_lt_length (nm : String) : ∀ (l : List String),
    nm ∈ l → idxOfName nm l < l.length := by
  intro l
  induction l with
  | nil => intro h; cases h
  | cons x xs ih =>
      intro h
      simp only [idxOfName, List.length_cons]
      by_cases hx : x = nm
      · rw [if_pos hx]; omega
      · rw [if_neg hx]
        have hmem : nm ∈ xs := by
          rcases List.mem_cons.1 h with h1 | h1
          · exact absurd h1.symm hx
          · exact h1
        have := ih hmem
        omega

/-- Claim C3 (amended): starting from a store with pairwise-distinct names,
`remove_user` and loading a duplicate-free file preserve distinctness, and
`register_new_user` preserves it when the registered name is NOT already
stored; registering an already-stored name, however, simply appends a second
entry (see the counterexample). -/
theorem store_names_unique_amended {Sig : Type} (dist : Sig → Sig → ℚ)
    (st : DB Sig) (nm : String) (cands : List Sig) (ok : Bool)
    (hnd : st.names.Nodup) :
    ((remove_user st nm ok).1.names.Nodup)
    ∧ (nm ∉ st.names →
        ((register_new_user dist st nm cands ok).1.names.Nodup))
    ∧ (∀ d : SavedData Sig, d.names.Nodup →
        (load_database (DiskFile.valid d)).names.Nodup)
    ∧ ((load_database (DiskFile.missing : DiskFile Sig)).names.Nodup)
    ∧ ((load_database (DiskFile.corrupt : DiskFile Sig)).names.Nodup) := by
  refine ⟨?_, ?_, ?_, List.nodup_nil, List.nodup_nil⟩
  · by_cases h : nm ∈ st.names
    · simp only [remove_user, if_pos h]
      exact List.Nodup.sublist (List.eraseIdx_sublist _ _) hnd
    · simp only [remove_user, if_neg h]
      exact hnd
  · intro hnin
    rcases hsel : selectBest dist st.encodings cands with _ | best
    · simp only [register_new_user, hsel]
      exact hnd
    · simp only [register_new_user, hsel]
      simp [List.nodup_append, hnd, hnin]
  · intro d hd
    exact hd

/-- Instance of the amended claim C3 at a concrete store. -/
theorem store_names_unique_amended_inst :
    ((remove_user (⟨[0], ["alice"]⟩ : DB ℚ) "bob" true).1.names.Nodup)
    ∧ ((register_new_user dq ⟨[0], ["alice"]⟩ "bob" [1] true).1.names.Nodup)
    ∧ ((load_database
        (DiskFile.valid (⟨[0], ["carol"]⟩ : SavedData ℚ))).names.Nodup) :=
  ⟨(store_names_unique_amended dq ⟨[0], ["alice"]⟩ "bob" [1] true
      (by decide)).1,
   (store_names_unique_amended dq ⟨[0], ["alice"]⟩ "bob" [1] true
      (by decide)).2.1 (by decide),
   (store_names_unique_amended dq ⟨[0], ["alice"]⟩ "bob" [1] true
      (by decide)).2.2.1 ⟨[0], ["carol"]⟩ (by decide)⟩

/-- Counterexample to claim C3 as stated: registering the already-stored
name "alice" appends a second "alice" entry, so the names of the resulting
store are no longer pairwise distinct. -/
theorem register_duplicate_name_cex :
    ((⟨[0], ["alice"]⟩ : DB ℚ).names.Nodup)
    ∧ ¬ ((register_new_user dq ⟨[0], ["alice"]⟩ "alice" [1]
        true).1.names.Nodup) := by
  decide

/-- Claim C10 (amended): register (with any outcome) and remove (with any
name) preserve equality of the lengths of the stored name and signature
lists, and load preserves it for a file whose two stored lists have equal
length — in particular every file written by `save_database`; a file with
mismatched lists, however, is loaded without validation (see the
counterexample). -/
theorem parallel_lists_preserved {Sig : Type} (dist : Sig → Sig → ℚ)
    (st : DB Sig) (nm : String) (cands : List Sig) (ok : Bool)
    (hlen : st.names.length = st.encodings.length) :
    ((register_new_user dist st nm cands ok).1.names.length
        = (register_new_user dist st nm cands ok).1.encodings.length)
    ∧ ((remove_user st nm ok).1.names.length
        = (remove_user st nm ok).1.encodings.length)
    ∧ (∀ d : SavedData Sig, d.names.length = d.encodings.length →
        (load_database (DiskFile.valid d)).names.length
          = (load_database (DiskFile.valid d)).encodings.length)
    ∧ ((load_database (DiskFile.missing : DiskFile Sig)).names.length
        = (load_database (DiskFile.missing : DiskFile Sig)).encodings.length)
    ∧ ((load_database (DiskFile.corrupt : DiskFile Sig)).names.length
        = (load_database (DiskFile.corrupt : DiskFile Sig)).encodings.length)
    := by
  refine ⟨?_, ?_, ?_, rfl, rfl⟩
  · rcases hsel : selectBest dist st.encodings cands with _ | best
    · simp only [register_new_user, hsel]
      exact hlen
    · simp only [register_new_user, hsel]
      simp [hlen]
  · by_cases h : nm ∈ st.names
    · simp only [remove_user, if_pos h]
      have hi : idxOfName nm st.names < st.names.length :=
        idxOfName_lt_length nm st.names h
      have hi2 : idxOfName nm st.names < st.encodings.length := by omega
      simp only [List.length_eraseIdx_of_lt hi, List.length_eraseIdx_of_lt hi2]
      omega
    · simp only [remove_user, if_neg h]
      exact hlen
  · intro d hd
    exact hd

/-- Instance of the amended claim C10 at a concrete store. -/
theorem parallel_lists_preserved_inst :
    ((register_new_user dq ⟨[0], ["alice"]⟩ "bob" [1] true).1.names.length
        = (register_new_user dq ⟨[0], ["alice"]⟩ "bob" [1]
            true).1.encodings.length)
    ∧ ((remove_user (⟨[0], ["alice"]⟩ : DB ℚ) "alice" true).1.names.length
        = (remove_user (⟨[0], ["alice"]⟩ : DB ℚ) "alice"
            true).1.encodings.length)
    ∧ ((load_database
          (DiskFile.valid (⟨[0], ["carol"]⟩ : SavedData ℚ))).names.length
        = (load_database
            (DiskFile.valid
              (⟨[0], ["carol"]⟩ : SavedData ℚ))).encodings.length) := by
  refine ⟨?_, ?_, ?_⟩
  · exact (parallel_lists_preserved dq ⟨[0], ["alice"]⟩ "bob" [1] true
      (by decide)).1
  · exact (parallel_lists_preserved dq ⟨[0], ["alice"]⟩ "alice" [1] true
      (by decide)).2.1
  · exact (parallel_lists_preserved dq ⟨[0], ["alice"]⟩ "alice" [1] true
      (by decide)).2.2.1 ⟨[0], ["carol"]⟩ (by decide)

/-- Counterexample to claim C10 as stated: loading a well-formed pickle
whose dict holds one encoding but no names yields a store whose two lists
have different lengths — load performs no validation, so "load from any
file" does not preserve the parallel-lists property. -/
theorem load_mismatched_file_cex :
    (load_database (DiskFile.valid (⟨[0], []⟩ : SavedData ℚ))).names.length
      ≠ (load_database
          (DiskFile.valid (⟨[0], []⟩ : SavedData ℚ))).encodings.length := by
  decide

/-- Claim C7 (amended): a failing disk write inside `save_database` is
caught there and not propagated; the mutating operation keeps its in-memory
mutation (no rollback) — but it reports SUCCESS to its caller, not failure:
`register_new_user` and `remove_user` return exactly what they return when
the write succeeds, namely true. -/
theorem persist_failure_swallowed_no_rollback {Sig : Type}
    (dist : Sig → Sig → ℚ) (st : DB Sig) (nm : String) (cands : List Sig) :
    register_new_user dist st nm cands false
        = register_new_user dist st nm cands true
    ∧ remove_user st nm false = remove_user st nm true
    ∧ (∀ best, selectBest dist st.encodings cands = some best →
        register_new_user dist st nm cands false
          = (⟨st.encodings ++ [best.1], st.names ++ [nm]⟩, true))
    ∧ (nm ∈ st.names → (remove_user st nm false).2 = true) := by
  refine ⟨?_, ?_, ?_, ?_⟩
  · rcases hsel : selectBest dist st.encodings cands with _ | best <;>
      simp only [register_new_user, hsel]
  · by_cases h : nm ∈ st.names
    · simp only [remove_user, if_pos h]
    · simp only [remove_user, if_neg h]
  · intro best hsel
    simp only [register_new_user, hsel]
  · intro h
    simp only [remove_user, if_pos h]

/-- Instance of the amended claim C7 at a concrete store, with the disk
write failing. -/
theorem persist_failure_swallowed_no_rollback_inst :
    register_new_user dq (⟨[0], ["alice"]⟩ : DB ℚ) "alice" [1] false
        = register_new_user dq ⟨[0], ["alice"]⟩ "alice" [1] true
    ∧ remove_user (⟨[0], ["alice"]⟩ : DB ℚ) "alice" false
        = remove_user ⟨[0], ["alice"]⟩ "alice" true
    ∧ register_new_user dq (⟨[0], ["alice"]⟩ : DB ℚ) "alice" [1] false
        = (⟨[0] ++ [1], ["alice"] ++ ["alice"]⟩, true)
    ∧ (remove_user (⟨[0], ["alice"]⟩ : DB ℚ) "alice" false).2 = true :=
  ⟨(persist_failure_swallowed_no_rollback dq ⟨[0], ["alice"]⟩ "alice"
      [1]).1,
   (persist_failure_swallowed_no_rollback dq ⟨[0], ["alice"]⟩ "alice"
      [1]).2.1,
   (persist_failure_swallowed_no_rollback dq ⟨[0], ["alice"]⟩ "alice"
      [1]).2.2.1 (1, 1) (by decide),
   (persist_failure_swallowed_no_rollback dq ⟨[0], ["alice"]⟩ "alice"
      [1]).2.2.2 (by decide)⟩

/-- Counterexample to claim C7 as stated: when the disk write raises, the
exception is caught inside `save_database`, and `register_new_user` still
returns true (and keeps its mutation) — it does not report failure, and
`remove_user` likewise returns true. -/
theorem persist_failure_reports_true_cex :
    trySave false = Except.error "disk write failed"
    ∧ (register_new_user dq ⟨[], []⟩ "alice" [0] false).2 = true
    ∧ (register_new_user dq ⟨[], []⟩ "alice" [0] false).1
        = (⟨[0], ["alice"]⟩ : DB ℚ)
    ∧ (remove_user (⟨[0], ["alice"]⟩ : DB ℚ) "alice" false).2 = true := by
  refine ⟨rfl, ?_, ?_, ?_⟩ <;> decide

/-- Claim C8: saving any store state and loading the written file
reproduces exactly the stored (name, signature) association (hence the same
set of pairs), and loading a missing or corrupt file yields the empty store
without raising (load is a total function). -/
theorem save_load_roundtrip {Sig : Type} (db : DB Sig) :
    save_database db true = some (DiskFile.valid ⟨db.encodings, db.names⟩)
    ∧ load_database (DiskFile.valid ⟨db.encodings, db.names⟩) = db
    ∧ load_database (DiskFile.missing : DiskFile Sig) = ⟨[], []⟩
    ∧ load_database (DiskFile.corrupt : DiskFile Sig) = ⟨[], []⟩ :=
  ⟨rfl, rfl, rfl, rfl⟩

/-- Claim C2 (amended): for every empty or whitespace-only message and
every user name, `get_response` returns the fixed prompt asking the user to
repeat themselves, short-circuiting before categorization (the reply is the
same for every choice oracle and message content) — but the message is
still appended to the history and, for a known name, the per-name
`message_count` IS advanced, because the counter update precedes the empty
check. -/
theorem get_response_empty_shortcircuit (choose : List String → String)
    (st : ChatState) (message : String) (user_name : Option String)
    (h : pyLowerStrip message = "") :
    get_response choose st message user_name =
      (⟨st.history ++
          [(match user_name with | some n => n | none => "Unknown", message)],
        match user_name with
        | some n => bumpCtx st.sessionContext n
        | none => st.sessionContext⟩, emptyPrompt) := by
  simp only [get_response, h]
  rfl

/-- Instance of the amended claim C2: a whitespace-only message from the
known name "alice" yields the fixed prompt while the counter for "alice"
advances to 1. -/
theorem get_response_empty_shortcircuit_inst :
    get_response (fun l => l.headD "") ⟨[], []⟩ "   " (some "alice")
      = (⟨[("alice", "   ")], [("alice", 1)]⟩, emptyPrompt) := by
  have h := get_response_empty_shortcircuit (fun l => l.headD "") ⟨[], []⟩
    "   " (some "alice") (by decide)
  rw [h]
  rfl

/-- Counterexample to claim C2 as stated: on a whitespace-only message from
"alice", the fixed prompt is returned, but the per-name turn counter — absent
before the call — is advanced to 1 by the call. -/
theorem get_response_empty_counter_cex :
    (get_response (fun l => l.headD "") ⟨[], []⟩ "   " (some "alice")).2
        = emptyPrompt
    ∧ ctxGet (⟨[], []⟩ : ChatState).sessionContext "alice" = none
    ∧ ctxGet (get_response (fun l => l.headD "") ⟨[], []⟩ "   "
        (some "alice")).1.sessionContext "alice" = some 1 := by
  refine ⟨?_, ?_, ?_⟩ <;> decide

lemma bestCategory_foldl_post : ∀ (post : List (String × Nat))
    (q : String × Nat), (∀ p ∈ post, p.2 ≤ q.2) →
    post.foldl bestStep (some q) = some q := by
  intro post
  induction post with
  | nil => intro q _; rfl
  | cons p ps ih =>
      intro q hq
      simp only [List.foldl, bestStep]
      rw [if_neg (not_lt.mpr (hq p (List.mem_cons_self p ps)))]
      exact ih q (fun r hr => hq r (List.mem_cons_of_mem p hr))

lemma bestCategory_foldl_pre (s : Nat) : ∀ (pre : List (String × Nat))
    (acc : Option (String × Nat)),
    (acc = none ∨ ∃ q, acc = some q ∧ q.2 < s) →
    (∀ p ∈ pre, p.2 < s) →
    (pre.foldl bestStep acc = none
      ∨ ∃ q, pre.foldl bestStep acc = some q ∧ q.2 < s) := by
  intro pre
  induction pre with
  | nil => intro acc hacc _; exact hacc
  | cons p ps ih =>
      intro acc hacc hpre
      simp only [List.foldl]
      apply ih
      · rcases hacc with h | ⟨q, hq, hqs⟩
        · subst h
          exact Or.inr ⟨p, rfl, hpre p (List.mem_cons_self p ps)⟩
        · subst hq
          simp only [bestStep]
          by_cases hlt : q.2 < p.2
          · rw [if_pos hlt]
            exact Or.inr ⟨p, rfl, hpre p (List.mem_cons_self p ps)⟩
          · rw [if_neg hlt]
            exact Or.inr ⟨q, rfl, hqs⟩
      · intro r hr
        exact hpre r (List.mem_cons_of_mem p hr)

/-- Claim C5: when several categories tie at the maximum score, the
first-enumerated one wins — for any enumeration split as
`pre ++ (c, s) :: post` where every earlier category scores strictly below
`s` and every later one at most `s`, Python's `max` returns `(c, s)`;
concretely on the fixed table, "hello" is categorized as greetings,
"thanks so much" as compliments (which ties with the later-enumerated
appreciation), and "banana" as default. -/
theorem categorize_tiebreak_first_enumerated
    (pre post : List (String × Nat)) (c : String) (s : Nat)
    (hpre : ∀ p ∈ pre, p.2 < s) (hpost : ∀ p ∈ post, p.2 ≤ s) :
    bestCategory (pre ++ (c, s) :: post) = some (c, s)
    ∧ categorizeMessage "hello" = "greetings"
    ∧ categorizeMessage "thanks so much" = "compliments"
    ∧ scoreCategory "thanks so much"
        ["thank you", "thanks", "good job", "well done", "excellent",
         "amazing", "awesome"]
      = scoreCategory "thanks so much"
        ["thank you", "thanks", "appreciate", "grateful"]
    ∧ categorizeMessage "banana" = "default" := by
  refine ⟨?_, by decide, by decide, by decide, by decide⟩
  simp only [bestCategory, List.foldl_append, List.foldl]
  have hmid := bestCategory_foldl_pre s pre none (Or.inl rfl) hpre
  have hstep : bestStep (pre.foldl bestStep none) (c, s) = some (c, s) := by
    rcases hmid with h | ⟨q, hq, hqs⟩
    · rw [h]; rfl
    · rw [hq]
      simp only [bestStep]
      rw [if_pos hqs]
  rw [hstep]
  exact bestCategory_foldl_post post (c, s) hpost

/-- Instance of claim C5 at a concrete score list exhibiting a tie at the
maximum between the middle category and a later one. -/
theorem categorize_tiebreak_first_enumerated_inst :
    bestCategory ([("compliments", 0)] ++ ("questions", 2)
        :: [("appreciation", 2)]) = some ("questions", 2)
    ∧ categorizeMessage "hello" = "greetings"
    ∧ categorizeMessage "thanks so much" = "compliments"
    ∧ scoreCategory "thanks so much"
        ["thank you", "thanks", "good job", "well done", "excellent",
         "amazing", "awesome"]
      = scoreCategory "thanks so much"
        ["thank you", "thanks", "appreciate", "grateful"]
    ∧ categorizeMessage "banana" = "default" :=
  categorize_tiebreak_first_enumerated [("compliments", 0)]
    [("appreciation", 2)] "questions" 2 (by decide) (by decide)

lemma scoreCategory_eq_zero (t : String) (kws : List String)
    (h : ∀ k ∈ kws, pyIn k t = false) :
    scoreCategory t kws = 0 := by
  simp only [scoreCategory, List.length_eq_zero, List.filter_eq_nil_iff]
  intro k hk
  simp [h k hk]

lemma score_zero_of_table_entry (t : String) (c : String) (kws : List String)
    (hmem : (c, kws) ∈ keywords) (hne : ∀ k ∈ kws, k ≠ "?")
    (hnk : ∀ p ∈ keywords, ∀ kw ∈ p.2, kw ≠ "?" → pyIn kw t = false) :
    scoreCategory t kws = 0 :=
  scoreCategory_eq_zero t kws (fun k hk => hnk (c, kws) hmem k hk (hne k hk))

lemma scoreCategory_questions (t : String)
    (hq : pyIn "?" t = true)
    (h : ∀ k ∈ (["what", "how", "why", "when", "where", "who", "?"] :
        List String), k ≠ "?" → pyIn k t = false) :
    scoreCategory t ["what", "how", "why", "when", "where", "who", "?"]
      = 1 := by
  have h1 := h "what" (by decide) (by decide)
  have h2 := h "how" (by decide) (by decide)
  have h3 := h "why" (by decide) (by decide)
  have h4 := h "when" (by decide) (by decide)
  have h5 := h "where" (by decide) (by decide)
  have h6 := h "who" (by decide) (by decide)
  simp [scoreCategory, List.filter, h1, h2, h3, h4, h5, h6, hq]

/-- Claim C6: for every text that contains the question-mark substring but
no other keyword of any category, the categorizer returns the questions
category (through the scoring phase: the question-mark keyword alone gives
the questions category score 1 and every other category score 0).  Read per
the claim's own note: since the question mark is itself a questions keyword,
"no recognized keyword" can only mean no keyword other than that one,
otherwise the precondition would be unsatisfiable. -/
theorem question_mark_without_other_keywords (t : String)
    (hq : pyIn "?" t = true)
    (hnk : ∀ p ∈ keywords, ∀ kw ∈ p.2, kw ≠ "?" → pyIn kw t = false) :
    categorizeMessage t = "questions" := by
  have hg := score_zero_of_table_entry t "greetings"
    ["hello", "hi", "hey", "greetings", "good morning", "good afternoon",
     "good evening"] (by decide) (by decide) hnk
  have hpq := score_zero_of_table_entry t "personal_questions"
    ["who are you", "what are you", "tell me about yourself", "your name"]
    (by decide) (by decide) hnk
  have hcm := score_zero_of_table_entry t "compliments"
    ["thank you", "thanks", "good job", "well done", "excellent", "amazing",
     "awesome"] (by decide) (by decide) hnk
  have hqs := scoreCategory_questions t hq
    (hnk ("questions", ["what", "how", "why", "when", "where", "who", "?"])
      (by decide))
  have hh := score_zero_of_table_entry t "help_requests"
    ["help", "assist", "support", "can you", "could you", "would you"]
    (by decide) (by decide) hnk
  have hgb := score_zero_of_table_entry t "goodbye"
    ["bye", "goodbye", "see you", "farewell", "later", "take care"]
    (by decide) (by decide) hnk
  have hw := score_zero_of_table_entry t "weather"
    ["weather", "temperature", "rain", "sunny", "cloudy", "storm"]
    (by decide) (by decide) hnk
  have hti := score_zero_of_table_entry t "time"
    ["time", "clock", "hour", "minute", "what time"] (by decide) (by decide)
    hnk
  have ha := score_zero_of_table_entry t "appreciation"
    ["thank you", "thanks", "appreciate", "grateful"] (by decide) (by decide)
    hnk
  have hscores : categoryScores t =
      [("greetings", 0), ("personal_questions", 0), ("compliments", 0),
       ("questions", 1), ("help_requests", 0), ("goodbye", 0),
       ("weather", 0), ("time", 0), ("appreciation", 0)] := by
    simp [categoryScores, keywords, hg, hpq, hcm, hqs, hh, hgb, hw, hti, ha]
  simp only [categorizeMessage, hscores]
  rfl

/-- Instance of claim C6: "banana?" contains the question mark and no other
keyword, and is categorized as questions. -/
theorem question_mark_without_other_keywords_inst :
    categorizeMessage "banana?" = "questions" :=
  question_mark_without_other_keywords "banana?" (by decide) (by decide)

/-- Claim C9 (the code falls short of it): in the embedded event traces,
`load_database`, `save_database` and `remove_user` perform shared-list
accesses only while holding the mutex, but `identify_face` — the match path
run by the capture thread — accesses the shared lists with the lock never
held, and `register_new_user` mutates them outside any lock (only its
nested `save_database` locks), so concurrent match and register/remove are
not serialized. -/
theorem store_lock_coverage :
    accessesLocked load_database_trace 0 = true
    ∧ accessesLocked save_database_trace 0 = true
    ∧ accessesLocked remove_user_trace 0 = true
    ∧ accessesLocked identify_face_trace 0 = false
    ∧ accessesLocked register_new_user_trace 0 = false := by
  decide

end Anubhava
